import Mathlib

/-!
Verification of the data-preparation and spatial-join pipeline of
`src/app.py` (Hospitals-Access-Peru).

Modelling conventions for the shallow embedding:
* A pandas DataFrame is a `Table`: a list of column labels plus positional
  rows of string cells.  Renaming `df.columns` touches only the labels.
* A cell read `df[c]` resolves the label to a position; a missing label is
  `none` (pandas raises `KeyError`, which the pipeline functions surface as
  `Except.error`).
* `pd.to_numeric(·, errors="coerce")` is modelled as exact decimal parsing
  into `ℚ` (`to_numeric`); unparsable cells become `none` (pandas `NaN`),
  and `dropna` keeps only rows whose two coordinate cells parse.
* A GeoDataFrame of points is a `GeoTable`: rows carry their constructed
  point `(x, y)`; in the source the coerced numbers are also written back
  into the NORTE/ESTE cells, which the carried pair represents.
-/

namespace HospitalsPeru

/-- Whitespace characters removed by `.str.strip()` (Python `str.strip`). -/
def isWS (c : Char) : Bool :=
  c = ' ' || c = '\t' || c = '\n' || c = '\r' || c = '\x0b' || c = '\x0c'

/-- Lower-to-upper character map used by `.str.upper()` on the label
alphabets occurring in the three datasets (ASCII letters plus the accented
Spanish letters appearing in the headers). -/
def upperPairs : List (Char × Char) :=
  [('a','A'),('b','B'),('c','C'),('d','D'),('e','E'),('f','F'),('g','G'),
   ('h','H'),('i','I'),('j','J'),('k','K'),('l','L'),('m','M'),('n','N'),
   ('o','O'),('p','P'),('q','Q'),('r','R'),('s','S'),('t','T'),('u','U'),
   ('v','V'),('w','W'),('x','X'),('y','Y'),('z','Z'),
   ('á','Á'),('é','É'),('í','Í'),('ó','Ó'),('ú','Ú'),('ñ','Ñ'),('ü','Ü')]

/-- Uppercase one character (`.str.upper()`, pointwise). -/
def upperChar (c : Char) : Char :=
  match upperPairs.find? (fun p => p.1 == c) with
  | some p => p.2
  | none => c

/-- Strip leading and trailing whitespace (`.str.strip()`). -/
def trimL (l : List Char) : List Char :=
  ((l.dropWhile isWS).reverse.dropWhile isWS).reverse

/-- Replace a space by an underscore (`.str.replace(" ", "_")`, pointwise;
pandas replaces every occurrence). -/
def replaceSpace (c : Char) : Char := if c = ' ' then '_' else c

/-- Column-label normalization of `app.py` lines 27-29:
`.str.strip().str.upper().str.replace(" ", "_")`. -/
def normalizeLabel (s : String) : String :=
  String.mk (((trimL s.data).map upperChar).map replaceSpace)

/-- A DataFrame: column labels plus positional rows of string cells. -/
structure Table where
  cols : List String
  rows : List (List String)
deriving DecidableEq

/-- Assignment `df.columns = df.columns.str.strip().str.upper().str.replace(" ", "_")`:
only the labels change, the row data is untouched. -/
def normalizeCols (t : Table) : Table :=
  { cols := t.cols.map normalizeLabel, rows := t.rows }

/-- Read the cell of row `r` under column label `c`: the label is resolved
to its (first) position in the column index. `none` models a missing
label or a missing value. -/
def getCell (cols : List String) (r : List String) (c : String) : Option String :=
  match cols.findIdx? (fun x => x == c) with
  | some i => r.get? i
  | none => none

/-- Numeric value of a decimal digit character. -/
def digitVal (c : Char) : Nat := c.toNat - 48

/-- Value of a nonempty digit string. -/
def natOfDigits (l : List Char) : Nat :=
  l.foldl (fun acc c => acc * 10 + digitVal c) 0

/-- Unsigned decimal literal: integer digits, optional `.` and fraction
digits, at least one digit in total. -/
def parseUnsigned (l : List Char) : Option ℚ :=
  let ip := l.takeWhile Char.isDigit
  match l.dropWhile Char.isDigit with
  | [] => if ip.isEmpty then none else some (mkRat (natOfDigits ip) 1)
  | '.' :: fp =>
      if fp.all Char.isDigit && !(ip.isEmpty && fp.isEmpty) then
        some (mkRat (natOfDigits ip * 10 ^ fp.length + natOfDigits fp) (10 ^ fp.length))
      else none
  | _ => none

/-- Coercion `pd.to_numeric(·, errors="coerce")` on a string cell (lines 40-41),
modelled as exact decimal parsing: optional surrounding whitespace and
sign, then an unsigned decimal. `none` is pandas `NaN`. -/
def to_numeric (s : String) : Option ℚ :=
  match trimL s.data with
  | '-' :: rest => (parseUnsigned rest).map (fun q => -q)
  | '+' :: rest => parseUnsigned rest
  | l => parseUnsigned l

/-- Coerced value of the cell of row `r` under label `c`. -/
def numCell (cols : List String) (r : List String) (c : String) : Option ℚ :=
  (getCell cols r c).bind to_numeric

/-- Line 37: `hospitals['CONDICIÓN'] == "EN FUNCIONAMIENTO"`. -/
def condOK (cols : List String) (r : List String) : Bool :=
  getCell cols r "CONDICIÓN" == some "EN FUNCIONAMIENTO"

/-- Lines 40-42: both NORTE and ESTE coerce to numbers (`dropna` keeps the
row only when neither coercion produced `NaN`). -/
def coordsOK (cols : List String) (r : List String) : Bool :=
  (numCell cols r "NORTE").isSome && (numCell cols r "ESTE").isSome

/-- Line 45: both optional filter columns are present. -/
def hasClasifInst (cols : List String) : Bool :=
  cols.contains "CLASIFICACIÓN" && cols.contains "INSTITUCIÓN"

/-- Lines 47-49: classification is one of the three allowed categories. -/
def clasifOK (cols : List String) (r : List String) : Bool :=
  getCell cols r "CLASIFICACIÓN" == some "HOSPITALES O CLINICAS DE ATENCION GENERAL" ||
  getCell cols r "CLASIFICACIÓN" == some "HOSPITALES O CLINICAS DE ATENCION ESPECIALIZADA" ||
  getCell cols r "CLASIFICACIÓN" == some "INSTITUTOS DE SALUD ESPECIALIZADOS"

/-- Line 50: `INSTITUCIÓN != "PRIVADO"` (a missing value is not equal to
"PRIVADO", matching pandas `!=` on `NaN`). -/
def instOK (cols : List String) (r : List String) : Bool :=
  getCell cols r "INSTITUCIÓN" != some "PRIVADO"

/-- Lines 37-51: the full row filter producing `hospitals_operational`.
Accessing the fixed columns CONDICIÓN / NORTE / ESTE raises `KeyError`
when absent; the classification/institution filter is skipped when either
of its two columns is absent. -/
def filterChain (t : Table) : Except String Table :=
  if !(t.cols.contains "CONDICIÓN") then Except.error "KeyError: CONDICIÓN"
  else if !(t.cols.contains "NORTE") then Except.error "KeyError: NORTE"
  else if !(t.cols.contains "ESTE") then Except.error "KeyError: ESTE"
  else
    let r1 := t.rows.filter (fun r => condOK t.cols r)
    let r2 := r1.filter (fun r => coordsOK t.cols r)
    let r3 := if hasClasifInst t.cols
      then r2.filter (fun r => clasifOK t.cols r && instOK t.cols r)
      else r2
    Except.ok { cols := t.cols, rows := r3 }

/-- A GeoDataFrame of points: each row carries its point `(x, y)`. -/
structure GeoTable where
  cols : List String
  rows : List (List String × ℚ × ℚ)
deriving DecidableEq

/-- Lines 54-55: `points_from_xy(ESTE, NORTE)` — the point of each row is
`x` = coerced ESTE, `y` = coerced NORTE (the filter guarantees both are
present for every surviving row; the `getD 0` default is never reached). -/
def attachGeometry (t : Table) : GeoTable :=
  { cols := t.cols,
    rows := t.rows.map (fun r =>
      (r, ((numCell t.cols r "ESTE").getD 0, (numCell t.cols r "NORTE").getD 0))) }

/-- Whether the first list is a leading segment of the second. -/
def leadsB : List Char → List Char → Bool
  | [], _ => true
  | _ :: _, [] => false
  | a :: as, b :: bs => a == b && leadsB as bs

/-- Python `needle in hay` on strings: contiguous substring test. -/
def containsSub (needle : List Char) : List Char → Bool
  | [] => needle.isEmpty
  | c :: rest => leadsB needle (c :: rest) || containsSub needle rest

/-- Lines 27-55: the whole hospital preparation — normalize the labels,
resolve the establishment-name column (line 32, `[0]` raises `IndexError`
when no label contains the marker substring), filter, attach geometry. -/
def prepare (hospitals : Table) : Except String GeoTable :=
  match ((normalizeCols hospitals).cols.filter
      (fun c => containsSub "ESTABLECIMIENTO".data c.data)).head? with
  | none => Except.error "IndexError: list index out of range"
  | some _ =>
      match filterChain (normalizeCols hospitals) with
      | Except.error e => Except.error e
      | Except.ok t => Except.ok (attachGeometry t)

/-- Number of enriched hospital rows whose DISTRITO cell equals `d`
(the size of the group of `d` in `groupby("DISTRITO")`). -/
def countDistrict (g : GeoTable) (d : String) : Nat :=
  (g.rows.filter (fun p => getCell g.cols p.1 "DISTRITO" == some d)).length

/-- The distinct DISTRITO keys of the enriched set (`groupby` drops rows
whose key is missing). -/
def hosp_count_keys (g : GeoTable) : List String :=
  (g.rows.filterMap (fun p => getCell g.cols p.1 "DISTRITO")).dedup

/-- Line 87: `hospitals_gdf.groupby("DISTRITO").size()` — one entry per
distinct district key with the size of its group. -/
def hosp_count (g : GeoTable) : List (String × Nat) :=
  (hosp_count_keys g).map (fun d => (d, countDistrict g d))

/-- A district table after the left merge: each row carries an optional
count (`none` is the `NaN` of an unmatched left row). -/
structure MergedTable where
  cols : List String
  rows : List (List String × Option Nat)
deriving DecidableEq

/-- Line 98: `districts_copy.merge(hosp_count, on="DISTRITO", how="left")`.
Every left row is kept; the count is looked up by exact district-name
equality (the keys of `hosp_count` are distinct, so `find?` is the match). -/
def merge_left (districts : Table) (hc : List (String × Nat)) : MergedTable :=
  { cols := districts.cols,
    rows := districts.rows.map (fun r =>
      (r, (getCell districts.cols r "DISTRITO").bind
            (fun d => (hc.find? (fun p => p.1 == d)).map (fun p => p.2)))) }

/-- A district table with a definite count per row. -/
structure CountedTable where
  cols : List String
  rows : List (List String × Nat)
deriving DecidableEq

/-- Line 99: `districts_copy["N_HOSPITALS"].fillna(0)`. -/
def fillna0 (m : MergedTable) : CountedTable :=
  { cols := m.cols, rows := m.rows.map (fun p => (p.1, p.2.getD 0)) }

/-- Lines 84-99: the joined district dataset `districts_copy`. -/
def districts_copy (districts : Table) (g : GeoTable) : CountedTable :=
  fillna0 (merge_left districts (hosp_count g))

/-- The distinct DEPARTAMEN keys of the joined district dataset
(`dissolve` groups by them, dropping rows with a missing key). -/
def deptKeys (ct : CountedTable) : List String :=
  (ct.rows.filterMap (fun p => getCell ct.cols p.1 "DEPARTAMEN")).dedup

/-- Line 116: `districts_copy.dissolve(by="DEPARTAMEN", aggfunc="sum")` —
the attribute part: one entry per department with the summed count. -/
def dissolve_dept (ct : CountedTable) : List (String × Nat) :=
  (deptKeys ct).map (fun dep =>
    (dep, ((ct.rows.filter (fun p => getCell ct.cols p.1 "DEPARTAMEN" == some dep)).map
            (fun p => p.2)).sum))

/-- Lines 116-117: `dept_summary`, sorted descending by summed count. -/
def dept_summary (ct : CountedTable) : List (String × Nat) :=
  (dissolve_dept ct).mergeSort (fun a b => decide (b.2 ≤ a.2))

/-- Modelled from the spec: the memoization semantics of the cached load
stage (`@st.cache_data` on `load_data`, lines 13-14). The cache decorator
is implemented by an external library, so only its contract is in the
repository; per the spec the result is computed at most once per session
and later invocations return the cached value without re-reading storage.
The state is the cached value; the returned `Bool` records whether this
invocation read storage (ran `compute`). -/
def load_data_cached {α : Type} (compute : Unit → α) (s : Option α) :
    α × Option α × Bool :=
  match s with
  | some v => (v, some v, false)
  | none =>
      let v := compute ()
      (v, some v, true)

/-! Character-level facts about the label normalization -/

lemma upperPairs_snd_not_key :
    ∀ p ∈ upperPairs, upperPairs.find? (fun q => q.1 == p.2) = none := by decide

lemma upperPairs_snd_not_space :
    ∀ p ∈ upperPairs, isWS p.2 = false ∧ p.2 ≠ ' ' := by decide

lemma upperChar_of_none {c : Char} (h : upperPairs.find? (fun q => q.1 == c) = none) :
    upperChar c = c := by
  simp [upperChar, h]

lemma upperChar_of_some {c : Char} {p : Char × Char}
    (h : upperPairs.find? (fun q => q.1 == c) = some p) : upperChar c = p.2 := by
  simp [upperChar, h]

lemma upperChar_idem (c : Char) : upperChar (upperChar c) = upperChar c := by
  cases h : upperPairs.find? (fun q => q.1 == c) with
  | none => rw [upperChar_of_none h, upperChar_of_none h]
  | some p =>
      have hp : p ∈ upperPairs := List.mem_of_find?_eq_some h
      rw [upperChar_of_some h, upperChar_of_none (upperPairs_snd_not_key p hp)]

lemma isWS_upperChar {c : Char} (h : isWS c = false) : isWS (upperChar c) = false := by
  cases hf : upperPairs.find? (fun q => q.1 == c) with
  | none => rw [upperChar_of_none hf]; exact h
  | some p =>
      rw [upperChar_of_some hf]
      exact (upperPairs_snd_not_space p (List.mem_of_find?_eq_some hf)).1

lemma replaceSpace_of_ne {c : Char} (h : ¬ c = ' ') : replaceSpace c = c := by
  simp [replaceSpace, h]

lemma isWS_normChar {c : Char} (h : isWS c = false) :
    isWS (replaceSpace (upperChar c)) = false := by
  by_cases hs : upperChar c = ' '
  · rw [hs]; decide
  · rw [replaceSpace_of_ne hs]; exact isWS_upperChar h

lemma normChar_idem (c : Char) :
    replaceSpace (upperChar (replaceSpace (upperChar c))) = replaceSpace (upperChar c) := by
  by_cases hs : upperChar c = ' '
  · rw [hs]; decide
  · rw [replaceSpace_of_ne hs, upperChar_idem, replaceSpace_of_ne hs]

/-! dropWhile and trim fixpoint lemmas -/

lemma head_dropWhile {p : Char → Bool} (l : List Char) {c : Char}
    (h : (l.dropWhile p).head? = some c) : p c = false := by
  induction l with
  | nil => simp [List.dropWhile] at h
  | cons a t ih =>
      rw [List.dropWhile_cons] at h
      by_cases ha : p a
      · rw [if_pos ha] at h; exact ih h
      · rw [if_neg ha] at h
        simp only [List.head?_cons, Option.some.injEq] at h
        subst h
        simpa using ha

lemma dropWhile_eq_self_of_head {p : Char → Bool} {l : List Char}
    (h : ∀ c, l.head? = some c → p c = false) : l.dropWhile p = l := by
  cases l with
  | nil => rfl
  | cons a t =>
      rw [List.dropWhile_cons, if_neg]
      simp [h a rfl]

lemma dropWhile_idem (p : Char → Bool) (l : List Char) :
    (l.dropWhile p).dropWhile p = l.dropWhile p :=
  dropWhile_eq_self_of_head (fun _ h => head_dropWhile l h)

lemma dropWhile_suffix_own (p : Char → Bool) : ∀ l : List Char, l.dropWhile p <:+ l := by
  intro l
  induction l with
  | nil => exact List.suffix_refl _
  | cons a t ih =>
      rw [List.dropWhile_cons]
      by_cases ha : p a
      · rw [if_pos ha]; exact ih.trans (List.suffix_cons a t)
      · rw [if_neg ha]

lemma length_dropWhile_le_own (p : Char → Bool) (l : List Char) :
    (l.dropWhile p).length ≤ l.length := by
  induction l with
  | nil => exact Nat.le_refl _
  | cons a t ih =>
      rw [List.dropWhile_cons]
      by_cases ha : p a
      · rw [if_pos ha]; exact ih.trans (Nat.le_succ _)
      · rw [if_neg ha]

lemma noLead_of_lead {p : Char → Bool} {x w : List Char} (hx : x <+: w)
    (hw : w.dropWhile p = w) : x.dropWhile p = x := by
  cases x with
  | nil => rfl
  | cons a t =>
      obtain ⟨s, hs⟩ := hx
      rw [List.cons_append] at hs
      subst hs
      rw [List.dropWhile_cons] at hw ⊢
      by_cases ha : p a
      · rw [if_pos ha] at hw
        have hlen := congrArg List.length hw
        have hle : ((t ++ s).dropWhile p).length ≤ (t ++ s).length :=
          length_dropWhile_le_own p (t ++ s)
        simp only [List.length_cons] at hlen
        omega
      · rw [if_neg ha]

lemma trimL_reverse_fix (l : List Char) :
    (trimL l).reverse.dropWhile isWS = (trimL l).reverse := by
  unfold trimL
  rw [List.reverse_reverse]
  exact dropWhile_idem _ _

lemma trimL_fix (l : List Char) : (trimL l).dropWhile isWS = trimL l := by
  unfold trimL
  apply noLead_of_lead (w := l.dropWhile isWS)
  · have h1 : (l.dropWhile isWS).reverse.dropWhile isWS <:+ (l.dropWhile isWS).reverse :=
      dropWhile_suffix_own isWS _
    have h2 := List.reverse_prefix.mpr h1
    rwa [List.reverse_reverse] at h2
  · exact dropWhile_idem _ _

lemma trimL_eq_self {l : List Char} (h1 : l.dropWhile isWS = l)
    (h2 : l.reverse.dropWhile isWS = l.reverse) : trimL l = l := by
  unfold trimL
  rw [h1, h2, List.reverse_reverse]

lemma noLead_map {l : List Char} (h : l.dropWhile isWS = l) :
    ((l.map upperChar).map replaceSpace).dropWhile isWS
      = (l.map upperChar).map replaceSpace := by
  apply dropWhile_eq_self_of_head
  intro c hc
  rw [List.head?_map, List.head?_map] at hc
  cases hl : l.head? with
  | none => rw [hl] at hc; simp at hc
  | some a =>
      rw [hl] at hc
      simp only [Option.map_some', Option.some.injEq] at hc
      have ha : isWS a = false := by
        apply head_dropWhile l
        rw [h, hl]
      rw [← hc]
      exact isWS_normChar ha

lemma noTrail_map {l : List Char} (h : l.reverse.dropWhile isWS = l.reverse) :
    ((l.map upperChar).map replaceSpace).reverse.dropWhile isWS
      = ((l.map upperChar).map replaceSpace).reverse := by
  rw [← List.map_reverse, ← List.map_reverse]
  exact noLead_map h

lemma maps_norm_idem (l : List Char) :
    (((l.map upperChar).map replaceSpace).map upperChar).map replaceSpace
      = (l.map upperChar).map replaceSpace := by
  simp only [List.map_map]
  apply List.map_congr_left
  intro a _
  exact normChar_idem a

lemma normalizeLabel_idem (s : String) :
    normalizeLabel (normalizeLabel s) = normalizeLabel s := by
  unfold normalizeLabel
  have hfix : trimL (((trimL s.data).map upperChar).map replaceSpace)
      = ((trimL s.data).map upperChar).map replaceSpace :=
    trimL_eq_self (noLead_map (trimL_fix s.data)) (noTrail_map (trimL_reverse_fix s.data))
  simp only [hfix]
  rw [maps_norm_idem]

/-- C5: the column-label normalization (trim, uppercase, space to
underscore) is idempotent on any list of labels, and normalizing a table's
columns changes only the labels, never the row data. -/
theorem C5_normalize_idempotent (labels : List String) (t : Table) :
    (labels.map normalizeLabel).map normalizeLabel = labels.map normalizeLabel
    ∧ (normalizeCols t).rows = t.rows := by
  constructor
  · rw [List.map_map]
    apply List.map_congr_left
    intro s _
    exact normalizeLabel_idem s
  · rfl

/-- C8: the load stage is memoized — the first invocation reads storage and
caches its result, and a second invocation in the same session returns the
identical cached value without reading storage again, leaving the cache
unchanged; both invocations stem from the single computation of the first. -/
theorem C8_load_memoized {α : Type} (compute : Unit → α) :
    (load_data_cached compute none).2.2 = true
    ∧ (load_data_cached compute (load_data_cached compute none).2.1).1
        = (load_data_cached compute none).1
    ∧ (load_data_cached compute (load_data_cached compute none).2.1).2.2 = false
    ∧ (load_data_cached compute (load_data_cached compute none).2.1).2.1
        = (load_data_cached compute none).2.1 :=
  ⟨rfl, rfl, rfl, rfl⟩

/-! Unfolding lemmas for the filter chain -/

lemma filterChain_eq_ok_of_contains {t : Table} (h1 : t.cols.contains "CONDICIÓN" = true)
    (h2 : t.cols.contains "NORTE" = true) (h3 : t.cols.contains "ESTE" = true) :
    filterChain t = Except.ok (Table.mk t.cols
      (if hasClasifInst t.cols
        then ((t.rows.filter (fun r => condOK t.cols r)).filter
                (fun r => coordsOK t.cols r)).filter
                (fun r => clasifOK t.cols r && instOK t.cols r)
        else (t.rows.filter (fun r => condOK t.cols r)).filter
                (fun r => coordsOK t.cols r))) := by
  unfold filterChain
  rw [h1, h2, h3]
  simp only [Bool.not_true, Bool.false_eq_true, if_false]

lemma filterChain_ok_inv {t t' : Table} (h : filterChain t = Except.ok t') :
    t.cols.contains "CONDICIÓN" = true ∧ t.cols.contains "NORTE" = true
      ∧ t.cols.contains "ESTE" = true := by
  unfold filterChain at h
  by_cases h1 : t.cols.contains "CONDICIÓN" = true
  · rw [h1] at h
    by_cases h2 : t.cols.contains "NORTE" = true
    · rw [h2] at h
      by_cases h3 : t.cols.contains "ESTE" = true
      · exact ⟨h1, h2, h3⟩
      · rw [Bool.not_eq_true] at h3
        rw [h3] at h
        simp at h
    · rw [Bool.not_eq_true] at h2
      rw [h2] at h
      simp at h
  · rw [Bool.not_eq_true] at h1
    rw [h1] at h
    simp at h

lemma filterChain_rows {t t' : Table} (h : filterChain t = Except.ok t') :
    t'.cols = t.cols ∧
    t'.rows = (if hasClasifInst t.cols
      then ((t.rows.filter (fun r => condOK t.cols r)).filter
              (fun r => coordsOK t.cols r)).filter
              (fun r => clasifOK t.cols r && instOK t.cols r)
      else (t.rows.filter (fun r => condOK t.cols r)).filter
              (fun r => coordsOK t.cols r)) := by
  obtain ⟨h1, h2, h3⟩ := filterChain_ok_inv h
  rw [filterChain_eq_ok_of_contains h1 h2 h3] at h
  injection h with h4
  subst h4
  exact ⟨rfl, rfl⟩

lemma mem_filterChain_rows {t t' : Table} (h : filterChain t = Except.ok t')
    {r : List String} :
    r ∈ t'.rows ↔ (r ∈ t.rows ∧ condOK t.cols r = true ∧ coordsOK t.cols r = true
      ∧ (hasClasifInst t.cols = true → (clasifOK t.cols r && instOK t.cols r) = true)) := by
  obtain ⟨_, hr⟩ := filterChain_rows h
  rw [hr]
  by_cases hci : hasClasifInst t.cols = true
  · rw [if_pos hci]
    simp only [List.mem_filter]
    constructor
    · rintro ⟨⟨⟨hm, hco⟩, hcr⟩, hcl⟩
      exact ⟨hm, hco, hcr, fun _ => hcl⟩
    · rintro ⟨hm, hco, hcr, hcl⟩
      exact ⟨⟨⟨hm, hco⟩, hcr⟩, hcl hci⟩
  · rw [if_neg hci]
    simp only [List.mem_filter]
    constructor
    · rintro ⟨⟨hm, hco⟩, hcr⟩
      exact ⟨hm, hco, hcr, fun hci2 => absurd hci2 hci⟩
    · rintro ⟨hm, hco, hcr, _⟩
      exact ⟨⟨hm, hco⟩, hcr⟩

/-- C7: the enrichment filter never enlarges the dataset, and it is a fixed
point on its own output — re-running the full filter chain on the filtered
table succeeds and returns it unchanged. -/
theorem C7_filter_shrinks_and_fixed (t t' : Table) (h : filterChain t = Except.ok t') :
    t'.rows.length ≤ t.rows.length ∧ filterChain t' = Except.ok t' := by
  obtain ⟨h1, h2, h3⟩ := filterChain_ok_inv h
  obtain ⟨hc, hr⟩ := filterChain_rows h
  have hall : ∀ r ∈ t'.rows, condOK t.cols r = true ∧ coordsOK t.cols r = true
      ∧ (hasClasifInst t.cols = true → (clasifOK t.cols r && instOK t.cols r) = true) := by
    intro r hm
    have := (mem_filterChain_rows h).mp hm
    exact ⟨this.2.1, this.2.2.1, this.2.2.2⟩
  constructor
  · rw [hr]
    by_cases hci : hasClasifInst t.cols = true
    · rw [if_pos hci]
      exact le_trans (List.length_filter_le _ _)
        (le_trans (List.length_filter_le _ _) (List.length_filter_le _ _))
    · rw [if_neg hci]
      exact le_trans (List.length_filter_le _ _) (List.length_filter_le _ _)
  · have h1' : t'.cols.contains "CONDICIÓN" = true := by rw [hc]; exact h1
    have h2' : t'.cols.contains "NORTE" = true := by rw [hc]; exact h2
    have h3' : t'.cols.contains "ESTE" = true := by rw [hc]; exact h3
    rw [filterChain_eq_ok_of_contains h1' h2' h3']
    have e1 : t'.rows.filter (fun r => condOK t'.cols r) = t'.rows := by
      rw [hc]
      exact List.filter_eq_self.mpr (fun r hm => (hall r hm).1)
    have e2 : t'.rows.filter (fun r => coordsOK t'.cols r) = t'.rows := by
      rw [hc]
      exact List.filter_eq_self.mpr (fun r hm => (hall r hm).2.1)
    by_cases hci : hasClasifInst t'.cols = true
    · have e3 : t'.rows.filter (fun r => clasifOK t'.cols r && instOK t'.cols r) = t'.rows := by
        rw [hc]
        refine List.filter_eq_self.mpr (fun r hm => (hall r hm).2.2 ?_)
        rw [← hc]
        exact hci
      rw [if_pos hci, e1, e2, e3]
    · rw [if_neg hci, e1, e2]

/-! Unfolding lemmas for the whole preparation -/

lemma attachGeometry_fst (t : Table) : (attachGeometry t).rows.map Prod.fst = t.rows := by
  unfold attachGeometry
  rw [List.map_map]
  have h : (Prod.fst ∘ fun r : List String =>
      (r, ((numCell t.cols r "ESTE").getD 0, (numCell t.cols r "NORTE").getD 0))) = id := rfl
  rw [h, List.map_id]

lemma prepare_eq_of_name_none {hosp : Table}
    (h : ((normalizeCols hosp).cols.filter
          (fun c => containsSub "ESTABLECIMIENTO".data c.data)) = []) :
    prepare hosp = Except.error "IndexError: list index out of range" := by
  unfold prepare
  rw [h]
  rfl

lemma prepare_eq_of_name_some {hosp : Table} {c : String}
    (h : ((normalizeCols hosp).cols.filter
          (fun c => containsSub "ESTABLECIMIENTO".data c.data)).head? = some c) :
    prepare hosp = (match filterChain (normalizeCols hosp) with
      | Except.error e => Except.error e
      | Except.ok t => Except.ok (attachGeometry t)) := by
  unfold prepare
  rw [h]

lemma prepare_eq_ok {hosp : Table} {g : GeoTable} (h : prepare hosp = Except.ok g) :
    ∃ t, filterChain (normalizeCols hosp) = Except.ok t ∧ g = attachGeometry t := by
  unfold prepare at h
  cases hh : ((normalizeCols hosp).cols.filter
      (fun c => containsSub "ESTABLECIMIENTO".data c.data)).head? with
  | none =>
      rw [hh] at h
      exact absurd h (by simp)
  | some c =>
      rw [hh] at h
      have h2 : (match filterChain (normalizeCols hosp) with
          | Except.error e => Except.error e
          | Except.ok t => Except.ok (attachGeometry t)) = Except.ok g := h
      cases hf : filterChain (normalizeCols hosp) with
      | error e =>
          rw [hf] at h2
          exact absurd h2 (by simp)
      | ok t =>
          rw [hf] at h2
          have h3 : Except.ok (attachGeometry t) = Except.ok g := h2
          injection h3 with h4
          exact ⟨t, rfl, h4.symm⟩

lemma filterChain_err_cond {t : Table} (h1 : t.cols.contains "CONDICIÓN" = false) :
    filterChain t = Except.error "KeyError: CONDICIÓN" := by
  unfold filterChain
  rw [h1]
  rfl

lemma filterChain_err_norte {t : Table} (h1 : t.cols.contains "CONDICIÓN" = true)
    (h2 : t.cols.contains "NORTE" = false) :
    filterChain t = Except.error "KeyError: NORTE" := by
  unfold filterChain
  rw [h1, h2]
  rfl

lemma filterChain_err_este {t : Table} (h1 : t.cols.contains "CONDICIÓN" = true)
    (h2 : t.cols.contains "NORTE" = true) (h3 : t.cols.contains "ESTE" = false) :
    filterChain t = Except.error "KeyError: ESTE" := by
  unfold filterChain
  rw [h1, h2, h3]
  rfl

/-- C1: a row appears in the enriched hospital spatial dataset iff it
satisfies the full predicate chain of section 4.3: operational status is
exactly "EN FUNCIONAMIENTO", both NORTE and ESTE coerce to numbers, and —
only when both the classification and the institution columns are present —
the classification is one of the three allowed categories and the
institution is not "PRIVADO"; when either column is absent that filter is
skipped. -/
theorem C1_enriched_iff_chain (hosp : Table) (g : GeoTable) (r : List String)
    (h : prepare hosp = Except.ok g) :
    r ∈ g.rows.map Prod.fst ↔
      (r ∈ (normalizeCols hosp).rows
        ∧ condOK (normalizeCols hosp).cols r = true
        ∧ coordsOK (normalizeCols hosp).cols r = true
        ∧ (hasClasifInst (normalizeCols hosp).cols = true →
            (clasifOK (normalizeCols hosp).cols r
              && instOK (normalizeCols hosp).cols r) = true)) := by
  obtain ⟨t, hf, hg⟩ := prepare_eq_ok h
  subst hg
  rw [attachGeometry_fst]
  exact mem_filterChain_rows hf

/-! Concrete tables for the scenario claims and witnesses -/

/-- The raw hospital row of spec scenario 1. -/
def rowC6 : List String :=
  ["MINSA", "EN FUNCIONAMIENTO", "HOSPITALES O CLINICAS DE ATENCION GENERAL",
   "HOSPITAL X", "LIMA", "LIMA", "SAN ISIDRO", "-12.05", "-77.03"]

/-- A one-row hospital table (raw headers) realizing spec scenario 1. -/
def hospC6 : Table :=
  { cols := ["Institución", "Condición", "Clasificación", "Nombre del Establecimiento",
             "Departamento", "Provincia", "Distrito", "NORTE", "ESTE"],
    rows := [rowC6] }

/-- The enriched spatial dataset the pipeline produces from `hospC6`. -/
def geoC6 : GeoTable :=
  GeoTable.mk
    ["INSTITUCIÓN", "CONDICIÓN", "CLASIFICACIÓN", "NOMBRE_DEL_ESTABLECIMIENTO",
     "DEPARTAMENTO", "PROVINCIA", "DISTRITO", "NORTE", "ESTE"]
    [(rowC6, (mkRat (-7703) 100, mkRat (-1205) 100))]

/-- C6: the scenario row (status "EN FUNCIONAMIENTO", institution "MINSA",
allowed classification, NORTE="-12.05", ESTE="-77.03") is included and its
point is (x = -77.03, y = -12.05); in general every surviving row's point
has x = the coerced ESTE cell and y = the coerced NORTE cell. -/
theorem C6_scenario_point (hosp : Table) (g : GeoTable)
    (h : prepare hosp = Except.ok g) :
    (∀ p ∈ g.rows, numCell g.cols p.1 "ESTE" = some p.2.1
        ∧ numCell g.cols p.1 "NORTE" = some p.2.2)
    ∧ prepare hospC6 = Except.ok geoC6 := by
  constructor
  · obtain ⟨t, hf, hg⟩ := prepare_eq_ok h
    subst hg
    intro p hp
    unfold attachGeometry at hp
    obtain ⟨r, hr, he⟩ := List.mem_map.mp hp
    have hco : coordsOK t.cols r = true := by
      obtain ⟨hc, -⟩ := filterChain_rows hf
      rw [hc]
      exact ((mem_filterChain_rows hf).mp hr).2.2.1
    unfold coordsOK at hco
    rw [Bool.and_eq_true] at hco
    have hn : numCell t.cols r "NORTE" = some ((numCell t.cols r "NORTE").getD 0) := by
      cases hx : numCell t.cols r "NORTE" with
      | none => rw [hx] at hco; simp at hco
      | some v => rfl
    have hev : numCell t.cols r "ESTE" = some ((numCell t.cols r "ESTE").getD 0) := by
      cases hx : numCell t.cols r "ESTE" with
      | none => rw [hx] at hco; simp at hco
      | some v => rfl
    subst he
    exact ⟨hev, hn⟩
  · rfl

/-- C6 witness: the concrete scenario-1 table evaluates to the expected
one-row spatial dataset. -/
theorem C6_scenario_point_witness : prepare hospC6 = Except.ok geoC6 :=
  (C6_scenario_point hospC6 geoC6 rfl).2

/-- C1 witness: the predicate-chain characterization instantiated at the
concrete scenario table and its surviving row. -/
theorem C1_enriched_iff_chain_witness :
    rowC6 ∈ geoC6.rows.map Prod.fst ↔
      (rowC6 ∈ (normalizeCols hospC6).rows
        ∧ condOK (normalizeCols hospC6).cols rowC6 = true
        ∧ coordsOK (normalizeCols hospC6).cols rowC6 = true
        ∧ (hasClasifInst (normalizeCols hospC6).cols = true →
            (clasifOK (normalizeCols hospC6).cols rowC6
              && instOK (normalizeCols hospC6).cols rowC6) = true)) :=
  C1_enriched_iff_chain hospC6 geoC6 rowC6 rfl

/-- A filter-chain input for the C7 witness: one passing row, one closed. -/
def tblC7 : Table :=
  { cols := ["CONDICIÓN", "NORTE", "ESTE", "DISTRITO"],
    rows := [["EN FUNCIONAMIENTO", "1.5", "2", "SAN ISIDRO"],
             ["CERRADO", "1", "2", "LINCE"]] }

/-- The filter chain's output on `tblC7`. -/
def tblC7f : Table :=
  { cols := ["CONDICIÓN", "NORTE", "ESTE", "DISTRITO"],
    rows := [["EN FUNCIONAMIENTO", "1.5", "2", "SAN ISIDRO"]] }

/-- C7 witness: on the concrete table the filtered output is no larger and
re-filtering returns it unchanged. -/
theorem C7_filter_shrinks_and_fixed_witness :
    tblC7f.rows.length ≤ tblC7.rows.length ∧ filterChain tblC7f = Except.ok tblC7f :=
  C7_filter_shrinks_and_fixed tblC7 tblC7f (by rfl)

/-- C9: the pipeline presupposes, after normalization, a column containing
"ESTABLECIMIENTO" and the fixed columns CONDICIÓN, NORTE and ESTE:
preparation succeeds iff all four are present; a missing name column makes
it fail with IndexError, and each missing fixed column with the
corresponding KeyError — there is no graceful skip for these, unlike the
optional CLASIFICACIÓN/INSTITUCIÓN pair. -/
theorem C9_precondition (hosp : Table) :
    ((∃ g, prepare hosp = Except.ok g) ↔
      (((normalizeCols hosp).cols.filter
          (fun c => containsSub "ESTABLECIMIENTO".data c.data)) ≠ []
        ∧ (normalizeCols hosp).cols.contains "CONDICIÓN" = true
        ∧ (normalizeCols hosp).cols.contains "NORTE" = true
        ∧ (normalizeCols hosp).cols.contains "ESTE" = true))
    ∧ (((normalizeCols hosp).cols.filter
          (fun c => containsSub "ESTABLECIMIENTO".data c.data)) = [] →
        prepare hosp = Except.error "IndexError: list index out of range")
    ∧ (((normalizeCols hosp).cols.filter
          (fun c => containsSub "ESTABLECIMIENTO".data c.data)) ≠ [] →
        ((normalizeCols hosp).cols.contains "CONDICIÓN" = false →
          prepare hosp = Except.error "KeyError: CONDICIÓN")
        ∧ ((normalizeCols hosp).cols.contains "CONDICIÓN" = true →
            (normalizeCols hosp).cols.contains "NORTE" = false →
            prepare hosp = Except.error "KeyError: NORTE")
        ∧ ((normalizeCols hosp).cols.contains "CONDICIÓN" = true →
            (normalizeCols hosp).cols.contains "NORTE" = true →
            (normalizeCols hosp).cols.contains "ESTE" = false →
            prepare hosp = Except.error "KeyError: ESTE")) := by
  have hname : ∀ hne : ((normalizeCols hosp).cols.filter
      (fun c => containsSub "ESTABLECIMIENTO".data c.data)) ≠ [],
      ∃ c, ((normalizeCols hosp).cols.filter
        (fun c => containsSub "ESTABLECIMIENTO".data c.data)).head? = some c := by
    intro hne
    cases hh : ((normalizeCols hosp).cols.filter
        (fun c => containsSub "ESTABLECIMIENTO".data c.data)).head? with
    | none => exact absurd (List.head?_eq_none_iff.mp hh) hne
    | some c => exact ⟨c, rfl⟩
  refine ⟨⟨?_, ?_⟩, ?_, ?_⟩
  · rintro ⟨g, hok⟩
    have hne : ((normalizeCols hosp).cols.filter
        (fun c => containsSub "ESTABLECIMIENTO".data c.data)) ≠ [] := by
      intro hnil
      rw [prepare_eq_of_name_none hnil] at hok
      exact Except.noConfusion hok
    obtain ⟨t, hf, -⟩ := prepare_eq_ok hok
    obtain ⟨h1, h2, h3⟩ := filterChain_ok_inv hf
    exact ⟨hne, h1, h2, h3⟩
  · rintro ⟨hne, h1, h2, h3⟩
    obtain ⟨c, hc⟩ := hname hne
    rw [prepare_eq_of_name_some hc, filterChain_eq_ok_of_contains h1 h2 h3]
    exact ⟨_, rfl⟩
  · exact prepare_eq_of_name_none
  · intro hne
    obtain ⟨c, hc⟩ := hname hne
    refine ⟨?_, ?_, ?_⟩
    · intro h1
      rw [prepare_eq_of_name_some hc, filterChain_err_cond h1]
    · intro h1 h2
      rw [prepare_eq_of_name_some hc, filterChain_err_norte h1 h2]
    · intro h1 h2 h3
      rw [prepare_eq_of_name_some hc, filterChain_err_este h1 h2 h3]

/-- A hospital table whose normalized columns lack CONDICIÓN. -/
def hospNoCond : Table :=
  { cols := ["Nombre del Establecimiento", "NORTE", "ESTE"], rows := [] }

/-- C9 witness: on a concrete table with an establishment column but no
CONDICIÓN column, preparation fails with the KeyError. -/
theorem C9_precondition_witness :
    prepare hospNoCond = Except.error "KeyError: CONDICIÓN" :=
  ((C9_precondition hospNoCond).2.2 (by decide)).1 (by decide)

/-! The district join collapses to a direct per-row count -/

lemma find?_count_pairs (g : GeoTable) (keys : List String) (d : String) :
    ((keys.map (fun k => (k, countDistrict g k))).find? (fun p => p.1 == d))
      = (if d ∈ keys then some (d, countDistrict g d) else none) := by
  induction keys with
  | nil => simp
  | cons k ks ih =>
      by_cases hk : k = d
      · subst hk
        simp [List.find?_cons]
      · have hpk : ((k, countDistrict g k).1 == d) = false := by
          simp [hk]
        rw [List.map_cons, List.find?_cons, hpk]
        show List.find? (fun p => p.1 == d) (List.map (fun k => (k, countDistrict g k)) ks)
            = if d ∈ k :: ks then some (d, countDistrict g d) else none
        rw [ih]
        have hmem : (d ∈ k :: ks) ↔ (d ∈ ks) := by
          rw [List.mem_cons]
          exact or_iff_right (fun h => hk h.symm)
        by_cases hd : d ∈ ks
        · rw [if_pos hd, if_pos (hmem.mpr hd)]
        · rw [if_neg hd, if_neg (fun h => hd (hmem.mp h))]

lemma countDistrict_eq_zero {g : GeoTable} {d : String}
    (h : d ∉ hosp_count_keys g) : countDistrict g d = 0 := by
  unfold hosp_count_keys at h
  rw [List.mem_dedup] at h
  unfold countDistrict
  rw [List.length_eq_zero]
  rw [List.filter_eq_nil_iff]
  intro p hp hpd
  rw [beq_iff_eq] at hpd
  exact h (List.mem_filterMap.mpr ⟨p, hp, hpd⟩)

lemma districts_copy_rows (districts : Table) (g : GeoTable) :
    (districts_copy districts g).rows = districts.rows.map (fun r =>
      (r, ((getCell districts.cols r "DISTRITO").map (countDistrict g)).getD 0)) := by
  unfold districts_copy fillna0 merge_left
  rw [List.map_map]
  apply List.map_congr_left
  intro r _
  simp only [Function.comp]
  cases hgc : getCell districts.cols r "DISTRITO" with
  | none => rfl
  | some d =>
      show (r, (((hosp_count g).find? (fun p => p.1 == d)).map (fun p => p.2)).getD 0)
        = (r, countDistrict g d)
      unfold hosp_count
      rw [find?_count_pairs]
      by_cases hd : d ∈ hosp_count_keys g
      · rw [if_pos hd]
        rfl
      · rw [if_neg hd, countDistrict_eq_zero hd]
        rfl

/-- C2: every district polygon row survives the left join with its data
unchanged, and its attached count is exactly the number of enriched
hospital rows whose DISTRITO cell equals that district's name — zero (never
null) when no enriched row matches. -/
theorem C2_join_counts (districts : Table) (g : GeoTable) :
    (districts_copy districts g).rows.length = districts.rows.length
    ∧ (districts_copy districts g).rows = districts.rows.map (fun r =>
        (r, ((getCell districts.cols r "DISTRITO").map (countDistrict g)).getD 0)) := by
  have h := districts_copy_rows districts g
  exact ⟨by rw [h, List.length_map], h⟩

/-- An enriched set with one hospital in district SANTA ROSA. -/
def geoDup : GeoTable :=
  GeoTable.mk ["DISTRITO"] [(["SANTA ROSA"], (mkRat 0 1, mkRat 0 1))]

/-- District rows: SANTA ROSA exists in two different departments. -/
def distrDup : Table :=
  { cols := ["DEPARTAMEN", "DISTRITO"],
    rows := [["LIMA", "SANTA ROSA"], ["PUNO", "SANTA ROSA"]] }

/-- C10: the join key is the district name alone — any two district rows
with equal DISTRITO value receive the same attached count, namely the
nationwide count of enriched hospitals bearing that name; consequently, on
the concrete duplicated-name example the per-row counts sum to more than
the number of enriched hospital rows. -/
theorem C10_join_by_name_only (districts : Table) (g : GeoTable)
    (r1 r2 : List String) (d : String)
    (h1 : r1 ∈ districts.rows) (h2 : r2 ∈ districts.rows)
    (e1 : getCell districts.cols r1 "DISTRITO" = some d)
    (e2 : getCell districts.cols r2 "DISTRITO" = some d) :
    ((r1, countDistrict g d) ∈ (districts_copy districts g).rows
      ∧ (r2, countDistrict g d) ∈ (districts_copy districts g).rows)
    ∧ ((districts_copy distrDup geoDup).rows.map Prod.snd).sum
        > geoDup.rows.length := by
  refine ⟨⟨?_, ?_⟩, by decide⟩
  · rw [districts_copy_rows]
    refine List.mem_map.mpr ⟨r1, h1, ?_⟩
    rw [e1]
    rfl
  · rw [districts_copy_rows]
    refine List.mem_map.mpr ⟨r2, h2, ?_⟩
    rw [e2]
    rfl

/-- C10 witness: instantiated on the duplicated-name example. -/
theorem C10_join_by_name_only_witness :
    ((["LIMA", "SANTA ROSA"], countDistrict geoDup "SANTA ROSA")
        ∈ (districts_copy distrDup geoDup).rows
      ∧ (["PUNO", "SANTA ROSA"], countDistrict geoDup "SANTA ROSA")
        ∈ (districts_copy distrDup geoDup).rows)
    ∧ ((districts_copy distrDup geoDup).rows.map Prod.snd).sum
        > geoDup.rows.length :=
  C10_join_by_name_only distrDup geoDup _ _ "SANTA ROSA"
    (by decide) (by decide) (by decide) (by decide)

/-! The dissolve partitions the rows by department key -/

lemma sum_map_ite (keys : List String) (d0 : String) (hnd : keys.Nodup)
    (h : d0 ∈ keys) (v : Nat) (t : String → Nat) :
    (keys.map (fun d => (if d0 = d then v else 0) + t d)).sum = v + (keys.map t).sum := by
  induction keys with
  | nil => cases h
  | cons k ks ih =>
      rw [List.map_cons, List.sum_cons, List.map_cons, List.sum_cons]
      rcases List.mem_cons.mp h with hk | hk
      · subst hk
        rw [if_pos rfl]
        have hnot : d0 ∉ ks := (List.nodup_cons.mp hnd).1
        have he : ks.map (fun d => (if d0 = d then v else 0) + t d) = ks.map t := by
          apply List.map_congr_left
          intro a ha
          have hna : ¬ d0 = a := fun hcon => hnot (by rw [hcon]; exact ha)
          rw [if_neg hna]
          omega
        rw [he]
        omega
      · have hne : ¬ d0 = k := fun hcon =>
          (List.nodup_cons.mp hnd).1 (by rw [← hcon]; exact hk)
        rw [if_neg hne, ih (List.nodup_cons.mp hnd).2 hk]
        omega

lemma sum_fiberwise {α : Type} (key : α → Option String) (f : α → Nat)
    (keys : List String) (hnd : keys.Nodup) :
    ∀ l : List α, (∀ a ∈ l, ∃ d, key a = some d ∧ d ∈ keys) →
      (keys.map (fun d => ((l.filter (fun a => key a == some d)).map f).sum)).sum
        = (l.map f).sum := by
  intro l
  induction l with
  | nil => intro _; simp
  | cons a l ih =>
      intro hcov
      obtain ⟨d0, hd0, hd0k⟩ := hcov a (List.mem_cons_self a l)
      have hstep : ∀ d, (((a :: l).filter (fun x => key x == some d)).map f).sum
          = (if d0 = d then f a else 0)
            + ((l.filter (fun x => key x == some d)).map f).sum := by
        intro d
        rw [List.filter_cons]
        by_cases hdd : d0 = d
        · subst hdd
          have hp : (key a == some d0) = true := by rw [hd0]; simp
          rw [if_pos hp, List.map_cons, List.sum_cons, if_pos rfl]
        · have hp : (key a == some d) = false := by
            rw [hd0]
            simp [hdd]
          rw [if_neg (by rw [hp]; exact Bool.false_ne_true), if_neg hdd]
          omega
      have hmaps : keys.map (fun d => (((a :: l).filter (fun x => key x == some d)).map f).sum)
          = keys.map (fun d => (if d0 = d then f a else 0)
              + ((l.filter (fun x => key x == some d)).map f).sum) := by
        apply List.map_congr_left
        intro d _
        exact hstep d
      rw [hmaps, sum_map_ite keys d0 hnd hd0k (f a) _,
        ih (fun x hx => hcov x (List.mem_cons_of_mem a hx)), List.map_cons, List.sum_cons]

lemma dissolve_dept_sum (ct : CountedTable)
    (h : ∀ p ∈ ct.rows, (getCell ct.cols p.1 "DEPARTAMEN").isSome = true) :
    ((dissolve_dept ct).map Prod.snd).sum = (ct.rows.map Prod.snd).sum := by
  unfold dissolve_dept
  rw [List.map_map]
  have hcov : ∀ p ∈ ct.rows, ∃ d,
      (getCell ct.cols p.1 "DEPARTAMEN") = some d ∧ d ∈ deptKeys ct := by
    intro p hp
    cases hgc : getCell ct.cols p.1 "DEPARTAMEN" with
    | none =>
        have := h p hp
        rw [hgc] at this
        simp at this
    | some d =>
        refine ⟨d, rfl, ?_⟩
        unfold deptKeys
        rw [List.mem_dedup]
        exact List.mem_filterMap.mpr ⟨p, hp, hgc⟩
  exact sum_fiberwise (fun p => getCell ct.cols p.1 "DEPARTAMEN") Prod.snd
    (deptKeys ct) (List.nodup_dedup _) ct.rows hcov

/-- C3: the department-level dissolve preserves the total count — the sum
of the count attribute over all joined district rows equals the sum of the
summed counts over the department summary. -/
theorem C3_dissolve_preserves_total (ct : CountedTable)
    (h : ∀ p ∈ ct.rows, (getCell ct.cols p.1 "DEPARTAMEN").isSome = true) :
    ((dept_summary ct).map Prod.snd).sum = (ct.rows.map Prod.snd).sum := by
  have hperm : ((dept_summary ct).map Prod.snd).Perm ((dissolve_dept ct).map Prod.snd) :=
    (List.mergeSort_perm (dissolve_dept ct) _).map Prod.snd
  rw [hperm.sum_eq]
  exact dissolve_dept_sum ct h

/-- A concrete joined district table for the dissolve witnesses. -/
def ctC3 : CountedTable :=
  { cols := ["DEPARTAMEN", "DISTRITO"],
    rows := [(["AMAZONAS", "A"], 0), (["LIMA", "B"], 3), (["LIMA", "C"], 2)] }

/-- C3 witness: the totals agree on the concrete table. -/
theorem C3_dissolve_preserves_total_witness :
    ((dept_summary ctC3).map Prod.snd).sum = (ctC3.rows.map Prod.snd).sum :=
  C3_dissolve_preserves_total ctC3 (by decide)

lemma dissolve_dept_fst (ct : CountedTable) :
    (dissolve_dept ct).map Prod.fst = deptKeys ct := by
  unfold dissolve_dept
  rw [List.map_map]
  have h : (Prod.fst ∘ fun dep : String =>
      (dep, ((ct.rows.filter
        (fun p => getCell ct.cols p.1 "DEPARTAMEN" == some dep)).map
          (fun p => p.2)).sum)) = id := rfl
  rw [h, List.map_id]

/-- C4: every department name present in the joined district dataset
appears exactly once in the department summary; in particular a department
all of whose districts carry count 0 appears with summed count 0 instead of
being omitted. -/
theorem C4_departments_once (ct : CountedTable) (dep : String) :
    ((dep ∈ ct.rows.filterMap (fun p => getCell ct.cols p.1 "DEPARTAMEN"))
        ↔ ((dept_summary ct).map Prod.fst).count dep = 1)
    ∧ ((dep ∈ ct.rows.filterMap (fun p => getCell ct.cols p.1 "DEPARTAMEN")
          ∧ ∀ p ∈ ct.rows, getCell ct.cols p.1 "DEPARTAMEN" = some dep → p.2 = 0) →
        (dep, 0) ∈ dept_summary ct) := by
  have hperm : ((dept_summary ct).map Prod.fst).Perm (deptKeys ct) := by
    rw [← dissolve_dept_fst]
    exact (List.mergeSort_perm (dissolve_dept ct) _).map Prod.fst
  have hmemkeys : dep ∈ deptKeys ct
      ↔ dep ∈ ct.rows.filterMap (fun p => getCell ct.cols p.1 "DEPARTAMEN") := by
    unfold deptKeys
    exact List.mem_dedup
  constructor
  · rw [hperm.count_eq]
    constructor
    · intro hm
      exact List.count_eq_one_of_mem (List.nodup_dedup _) (hmemkeys.mpr hm)
    · intro hcount
      by_contra hnm
      rw [List.count_eq_zero_of_not_mem (fun hc => hnm (hmemkeys.mp hc))] at hcount
      exact Nat.zero_ne_one hcount
  · rintro ⟨hm, hzero⟩
    have hmm : (dep, 0) ∈ dissolve_dept ct → (dep, 0) ∈ dept_summary ct := by
      intro hmem
      unfold dept_summary
      exact ((List.mergeSort_perm (dissolve_dept ct) _).mem_iff).mpr hmem
    apply hmm
    unfold dissolve_dept
    have hsum : ((ct.rows.filter
        (fun p => getCell ct.cols p.1 "DEPARTAMEN" == some dep)).map
          (fun p => p.2)).sum = 0 := by
      apply List.sum_eq_zero
      intro x hx
      obtain ⟨p, hp, hpx⟩ := List.mem_map.mp hx
      have hpm := List.mem_filter.mp hp
      rw [beq_iff_eq] at hpm
      rw [← hpx]
      exact hzero p hpm.1 hpm.2
    refine List.mem_map.mpr ⟨dep, hmemkeys.mpr hm, ?_⟩
    rw [hsum]

/-- C4 witness: the all-zero department AMAZONAS appears with count 0 in
the concrete summary. -/
theorem C4_departments_once_witness : ("AMAZONAS", 0) ∈ dept_summary ctC3 :=
  (C4_departments_once ctC3 "AMAZONAS").2 (by decide)

end HospitalsPeru
